import Mathlib

/-!
Verification of the prompt-engineering-studio evaluator suite.

This file gives a shallow embedding, in Lean 4, of the evaluator modules of
the repository (`src/evaluator/offline.py`, `metrics.py`, `robustness.py`,
`consistency.py`, `cache.py`, `history.py`) and proves or refutes the frozen
claims about them.

Modelling conventions, applied throughout:
* Python `str` is Lean `String`; only ASCII behaviour of `str.lower`,
  `str.strip` and `re.findall(r'\w+', ...)` is modelled (all claims use
  ASCII data).
* Python `float` is modelled as `ℚ` wherever the source only performs field
  arithmetic, and as `ℝ` where the source uses `math.exp` / `math.log`
  (the BLEU geometric mean).  Python's `round(x, 4)` is modelled as
  round-half-up to four decimals; it differs from Python's bankers'
  rounding only on exact half-ulps, which no claim exercises.
* A Python function that can raise is modelled as returning
  `Except String _`; a caller-supplied `model_func` is modelled as a
  function into `Except String String` (`.error` = the call raised).
* Python dicts keyed by strings (or parameter tuples) are modelled as
  association lists with an explicit `alookup`.
-/

/-- Character class of Python's `str.strip()` default separators
(ASCII whitespace). -/
def pyIsSpace (c : Char) : Bool :=
  c = ' ' ∨ c = '\t' ∨ c = '\n' ∨ c = '\r' ∨ c = '\x0b' ∨ c = '\x0c'

/-- Python `s.strip()` on the character list of a string. -/
def pyStrip (s : List Char) : List Char :=
  ((s.dropWhile pyIsSpace).reverse.dropWhile pyIsSpace).reverse

/-- Python `s.strip()` at `String` level. -/
def pyStripStr (s : String) : String :=
  ⟨pyStrip s.data⟩

/-- Python `s.strip().lower()`, the normalization used by
`OfflineEvaluator.evaluate_accuracy` and `ConsistencyScorer`. -/
def pyNormalize (s : String) : String :=
  ⟨(pyStrip s.data).map Char.toLower⟩

/-- First-match association-list lookup, modelling Python dict access. -/
def alookup {α β : Type} [DecidableEq α] : List (α × β) → α → Option β
  | [], _ => none
  | kv :: rest, k => if kv.1 = k then some kv.2 else alookup rest k

/-- Python `max(l)` for a possibly-empty list (`none` on `[]`). -/
def listMax? {α : Type} [LinearOrder α] : List α → Option α
  | [] => none
  | a :: as => some (as.foldl max a)

/-- Python `min(l)` for a possibly-empty list (`none` on `[]`). -/
def listMin? {α : Type} [LinearOrder α] : List α → Option α
  | [] => none
  | a :: as => some (as.foldl min a)

/-- Python `round(q, 4)` (see the file header for the half-ulp caveat). -/
def round4 (q : ℚ) : ℚ :=
  ((round (q * 10000) : ℤ) : ℚ) / 10000

/-- Case analysis on `Except`, used to model Python `try`/`except` around a
single call. -/
def exceptCase {ε α β : Type} (e : Except ε α) (err : ε → β) (ok : α → β) : β :=
  match e with
  | .error x => err x
  | .ok a => ok a

/-- Decidable equality for `Except` results (not derived by core). -/
instance {ε α : Type} [DecidableEq ε] [DecidableEq α] : DecidableEq (Except ε α) :=
  fun a b =>
    match a, b with
    | .error e, .error f =>
      if h : e = f then isTrue (by rw [h]) else isFalse (by simp [h])
    | .error _, .ok _ => isFalse (by simp)
    | .ok _, .error _ => isFalse (by simp)
    | .ok x, .ok y =>
      if h : x = y then isTrue (by rw [h]) else isFalse (by simp [h])

/-! ## OfflineEvaluator (src/evaluator/offline.py) -/

/-- Embedding of `OfflineEvaluator.evaluate_accuracy`.  Empty `predictions`
or `ground_truth` short-circuit to `0.0` BEFORE the length check; a length
mismatch of two non-empty lists raises `ValueError` (modelled as
`.error`); otherwise the score is the fraction of case-insensitively,
whitespace-trimmed matching pairs. -/
def evaluate_accuracy (predictions ground_truth : List String) : Except String ℚ :=
  if predictions = [] ∨ ground_truth = [] then .ok 0
  else if predictions.length ≠ ground_truth.length then
    .error "Predictions and ground truth must have the same length"
  else
    .ok ((((predictions.zip ground_truth).countP
        (fun pt => pyNormalize pt.1 = pyNormalize pt.2)) : ℚ) / predictions.length)

/-! ## ConsistencyScorer (src/evaluator/consistency.py) -/

/-- Embedding of `ConsistencyScorer.calculate_self_consistency`: frequency of
the modal trimmed-and-lowercased response divided by the total count; `0.0`
on the empty list.  `Counter(normalized).most_common(1)[0][1]` is the maximal
multiplicity, modelled as the `max` over the counts of the distinct
normalized responses. -/
def calculate_self_consistency (responses : List String) : ℚ :=
  if responses = [] then 0
  else
    let normalized := responses.map pyNormalize
    (listMax? (normalized.dedup.map fun x => normalized.count x)).elim 0
      (fun m => (m : ℚ) / responses.length)

/-! ## ResponseCache (src/evaluator/cache.py)

The SHA-256 cache key of `_generate_key` is modelled as the parameter tuple
itself (the source relies on hash injectivity).  `datetime.now()` is
modelled as an explicit clock argument `now : ℚ` measured in hours, so that
`timedelta(hours=ttl_hours)` is addition of rationals.  The in-memory dict
and the on-disk file tree are each modelled as an association list; disk
writes always succeed in the model (the source swallows write failures).
Entries always carry a timestamp, so the source's `if not timestamp`
fallback branch of `_is_expired` is not reachable in the model. -/

/-- Cache key: the `(prompt, model, provider, temperature)` tuple hashed by
`ResponseCache._generate_key` (extra kwargs are not modelled — no claim
passes any). -/
abbrev CacheKey := String × String × String × ℚ

/-- Embedding of `ResponseCache._generate_key`. -/
def _generate_key (prompt model provider : String) (temperature : ℚ) : CacheKey :=
  (prompt, model, provider, temperature)

/-- Entry stored by `ResponseCache.set`. -/
structure CacheEntry where
  prompt : String
  model : String
  provider : String
  temperature : ℚ
  response : String
  timestamp : ℚ
deriving DecidableEq

/-- State of a `ResponseCache`: memory tier, disk tier, statistics. -/
structure CacheState where
  memory_cache : List (CacheKey × CacheEntry)
  disk_cache : List (CacheKey × CacheEntry)
  hits : ℕ
  misses : ℕ
  saves : ℕ
deriving DecidableEq

/-- Python dict assignment `d[k] = v`. -/
def dictSet (l : List (CacheKey × CacheEntry)) (k : CacheKey) (v : CacheEntry) :
    List (CacheKey × CacheEntry) :=
  (k, v) :: l.filter (fun kv => kv.1 ≠ k)

/-- Python `del d[k]` (also models unlinking a cache file). -/
def dictDel (l : List (CacheKey × CacheEntry)) (k : CacheKey) :
    List (CacheKey × CacheEntry) :=
  l.filter (fun kv => kv.1 ≠ k)

/-- Embedding of `ResponseCache._is_expired`:
`datetime.now() > cached_time + timedelta(hours=self.ttl_hours)`. -/
def _is_expired (ttl_hours now timestamp : ℚ) : Bool :=
  decide (timestamp + ttl_hours < now)

/-- Disk-tier half of `ResponseCache.get`: on a fresh disk entry, promote it
into memory and count a hit; on an expired entry, unlink the file and fall
through to the miss counter; on absence, count a miss. -/
def cacheGetDisk (ttl_hours now : ℚ) (st : CacheState) (key : CacheKey) :
    Option String × CacheState :=
  (alookup st.disk_cache key).elim
    (none, { st with misses := st.misses + 1 })
    (fun entry =>
      if _is_expired ttl_hours now entry.timestamp then
        (none, { st with disk_cache := dictDel st.disk_cache key,
                         misses := st.misses + 1 })
      else
        (some entry.response,
          { st with memory_cache := dictSet st.memory_cache key entry,
                    hits := st.hits + 1 }))

/-- Embedding of `ResponseCache.get`: memory tier first (deleting an expired
memory entry before falling through to disk), then the disk tier. -/
def cacheGet (ttl_hours now : ℚ) (st : CacheState) (prompt model provider : String)
    (temperature : ℚ) : Option String × CacheState :=
  let key := _generate_key prompt model provider temperature
  (alookup st.memory_cache key).elim
    (cacheGetDisk ttl_hours now st key)
    (fun entry =>
      if _is_expired ttl_hours now entry.timestamp then
        cacheGetDisk ttl_hours now
          { st with memory_cache := dictDel st.memory_cache key } key
      else
        (some entry.response, { st with hits := st.hits + 1 }))

/-- Embedding of `ResponseCache.set`: build the entry stamped with the
current time and store it in both tiers. -/
def cacheSet (now : ℚ) (st : CacheState) (prompt model provider response : String)
    (temperature : ℚ) : CacheState :=
  let key := _generate_key prompt model provider temperature
  let entry : CacheEntry :=
    ⟨prompt, model, provider, temperature, response, now⟩
  { st with memory_cache := dictSet st.memory_cache key entry,
            disk_cache := dictSet st.disk_cache key entry,
            saves := st.saves + 1 }

/-! ## EvaluationHistoryManager (src/evaluator/history.py)

The on-disk index (`index.json`) and the per-run files are modelled as an
in-memory state: `prompts` maps a prompt id to its run ids in append
(chronological, oldest-first) order, and `runs` maps a run id to the stored
run.  Of `EvaluationRun`'s fields only `id` and `metrics` are modelled; the
claims use no other field.  `statistics.mean` is modelled as
`sum / length` (its callers below always pass a non-empty list). -/

/-- Stored evaluation run (fields relevant to the claims). -/
structure EvaluationRun where
  id : String
  metrics : List (String × ℚ)
deriving DecidableEq

/-- State of an `EvaluationHistoryManager`. -/
structure HistoryState where
  prompts : List (String × List String)
  runs : List (String × EvaluationRun)
deriving DecidableEq

/-- Embedding of `EvaluationHistoryManager.get_evaluation`. -/
def get_evaluation (st : HistoryState) (run_id : String) : Option EvaluationRun :=
  alookup st.runs run_id

/-- Embedding of `EvaluationHistoryManager.get_prompt_history`: take the
last `limit` run ids (all of them when `limit` is `None` or `0`, mirroring
Python's falsy test), newest first, dropping ids whose run file is
missing. -/
def get_prompt_history (st : HistoryState) (prompt_id : String) (limit : Option ℕ) :
    List EvaluationRun :=
  (alookup st.prompts prompt_id).elim []
    (fun run_ids =>
      let ids := limit.elim run_ids
        (fun l => if l = 0 then run_ids else run_ids.drop (run_ids.length - l))
      ids.reverse.filterMap (fun rid => get_evaluation st rid))

/-- Result dict of `detect_regression`: `noHistory` covers the two early
returns carrying only `regression_detected` and `reason`; `analysis` is the
full report. -/
inductive RegressionResult where
  | noHistory (regression_detected : Bool) (reason : String)
  | analysis (regression_detected : Bool) (metric : String)
      (recent_average baseline_average drop_percentage threshold : ℚ)
      (recent_runs baseline_runs : ℕ) (severity : String)
deriving DecidableEq

/-- Embedding of `EvaluationHistoryManager.detect_regression`. -/
def detect_regression (st : HistoryState) (prompt_id metric_name : String)
    (threshold : ℚ := 1/20) (window : ℕ := 5) : RegressionResult :=
  let history := get_prompt_history st prompt_id (some (window * 2))
  if history.length < 2 then .noHistory false "Insufficient history"
  else
    let values := history.filterMap (fun run => alookup run.metrics metric_name)
    if values.length < 2 then
      .noHistory false ("Metric \x27" ++ metric_name ++ "\x27 not found in history")
    else
      let recent := values.take window
      let baseline0 :=
        if window < values.length then (values.drop window).take window
        else values.drop window
      let baseline := if baseline0 = [] then values else baseline0
      let recent_avg := recent.sum / (recent.length : ℚ)
      let baseline_avg := baseline.sum / (baseline.length : ℚ)
      let drop_pct :=
        if 0 < baseline_avg then (baseline_avg - recent_avg) / baseline_avg else 0
      let regression_detected : Bool := decide (threshold < drop_pct)
      .analysis regression_detected metric_name (round4 recent_avg)
        (round4 baseline_avg) (round4 drop_pct) threshold recent.length
        baseline.length
        (if threshold * 2 < drop_pct then "high"
         else if regression_detected then "medium" else "none")

/-- History state of the regression-detection scenario: prompt `p1` with 10
runs, metric `accuracy` equal to `0.9` in the 5 oldest (`r1`–`r5`) and
`0.7` in the 5 newest (`r6`–`r10`). -/
def c5State : HistoryState :=
  ⟨[("p1", ["r1", "r2", "r3", "r4", "r5", "r6", "r7", "r8", "r9", "r10"])],
    [("r1", ⟨"r1", [("accuracy", 9/10)]⟩), ("r2", ⟨"r2", [("accuracy", 9/10)]⟩),
     ("r3", ⟨"r3", [("accuracy", 9/10)]⟩), ("r4", ⟨"r4", [("accuracy", 9/10)]⟩),
     ("r5", ⟨"r5", [("accuracy", 9/10)]⟩), ("r6", ⟨"r6", [("accuracy", 7/10)]⟩),
     ("r7", ⟨"r7", [("accuracy", 7/10)]⟩), ("r8", ⟨"r8", [("accuracy", 7/10)]⟩),
     ("r9", ⟨"r9", [("accuracy", 7/10)]⟩), ("r10", ⟨"r10", [("accuracy", 7/10)]⟩)]⟩

/-! ## RobustnessTester (src/evaluator/robustness.py) and
`OfflineEvaluator.run_evaluation` -/

/-- Python `s.split(sep)` (non-empty `sep`) on character lists, by fuel
(one unit per consumed character; the fuel-0 case is unreachable for
`fuel = s.length`). -/
def splitOnFuel (sep : List Char) : ℕ → List Char → List Char → List (List Char)
  | _, [], acc => [acc.reverse]
  | 0, s, acc => [acc.reverse ++ s]
  | fuel + 1, c :: cs, acc =>
    if sep.isPrefixOf (c :: cs) then
      acc.reverse :: splitOnFuel sep fuel (List.drop (sep.length - 1) cs) []
    else
      splitOnFuel sep fuel cs (c :: acc)

/-- Python `s.split(sep)` at `String` level. -/
def pySplit (s sep : String) : List String :=
  (splitOnFuel sep.data s.data.length s.data []).map (fun l => ⟨l⟩)

/-- Python `pat in s` (substring containment) for non-empty `pat`. -/
def containsSubstr (s pat : String) : Bool :=
  (pySplit s pat).length ≠ 1

/-- Python `s.replace(pat, rep)` for non-empty `pat`
(`rep.join(s.split(pat))`). -/
def pyReplace (s pat rep : String) : String :=
  String.intercalate rep (pySplit s pat)

/-- Meta-prompt built by `RobustnessTester.generate_variations`. -/
def meta_prompt (prompt : String) (n_variations : ℕ) : String :=
  "You are a prompt engineer. Rewrite the following prompt in "
    ++ toString n_variations
    ++ " different ways, keeping the core meaning but changing the wording, "
    ++ "structure, or tone. "
    ++ "Output ONLY the rewritten prompts, separated by \x27---\x27.\n\n"
    ++ "Original Prompt:\n" ++ prompt

/-- Splitting-and-cleaning step of `generate_variations`:
`[v.strip() for v in response.split('---') if v.strip()]`. -/
def splitVariations (response : String) : List String :=
  ((pySplit response "---").map pyStripStr).filter (fun v => v ≠ "")

/-- Embedding of `RobustnessTester.generate_variations`: ask the model to
rewrite the prompt, split its answer on `---`, strip and drop empties; fall
back to `[prompt]` when nothing survives, prepend the original prompt when
it is missing, and truncate to `n_variations + 1` entries.  Any exception
from `model_func` yields `[prompt]`. -/
def generate_variations (prompt : String) (model_func : String → Except String String)
    (n_variations : ℕ := 3) : List String :=
  exceptCase (model_func (meta_prompt prompt n_variations))
    (fun _ => [prompt])
    (fun response =>
      let variations := splitVariations response
      let variations :=
        if variations = [] then [prompt]
        else if prompt ∈ variations then variations
        else prompt :: variations
      variations.take (n_variations + 1))

/-- Dataset item, Python `{"input": ..., "output": ...}`. -/
structure DatasetItem where
  input : String
  output : String
deriving DecidableEq

/-- Per-prompt entry of the `run_evaluation` results dict. -/
structure PromptEvalResult where
  template : String
  accuracy : ℚ
  predictions : List String
  ground_truth : List String
deriving DecidableEq

/-- Placeholder `{{input}}` substituted by `run_evaluation`. -/
def inputPlaceholder : String := "\x7b\x7binput\x7d\x7d"

/-- Full-prompt construction of `run_evaluation`: substitute `{{input}}`
when the template contains it, else append `\n\nInput: <input>`. -/
def buildFullPrompt (template input_text : String) : String :=
  if containsSubstr template inputPlaceholder then
    pyReplace template inputPlaceholder input_text
  else template ++ "\n\nInput: " ++ input_text

/-- Sequential error-propagating map, modelling the Python loop over
prompts (an uncaught exception aborts the whole evaluation). -/
def mapExcept {α β ε : Type} (f : α → Except ε β) : List α → Except ε (List β)
  | [] => .ok []
  | a :: as => (f a).bind (fun b => (mapExcept f as).map (fun bs => b :: bs))

/-- Embedding of `OfflineEvaluator.run_evaluation`, as the ordered list of
the dict's `prompt_i` entries.  Exceptions of `model_func` on a single item
are swallowed as the empty response; the `sensitivity_analysis` summary
entry (mean/median/stdev over the accuracies) is not modelled — no claim
touches it. -/
def run_evaluation (dataset : List DatasetItem) (prompts : List String)
    (model_func : String → Except String String) :
    Except String (List PromptEvalResult) :=
  mapExcept (fun template =>
    let predictions := dataset.map (fun item =>
      exceptCase (model_func (buildFullPrompt template item.input))
        (fun _ => "") (fun response => response))
    let ground_truth := dataset.map (fun item => item.output)
    (evaluate_accuracy predictions ground_truth).map (fun accuracy =>
      ⟨template, accuracy, predictions, ground_truth⟩)) prompts

/-- Entry of the `format_variations` list built by
`test_format_robustness` (the cosmetic `name`/`example` fields are not
modelled). -/
structure FormatVariation where
  score : ℚ
  delta : ℚ
  delta_percent : ℚ
deriving DecidableEq

/-- Report of `test_format_robustness`. -/
structure RobustnessReport where
  robustness_score : ℚ
  performance_delta : ℚ
  variations : List String
  format_variations : List FormatVariation
  results : List PromptEvalResult
deriving DecidableEq

/-- Embedding of `RobustnessTester.test_format_robustness`: generate
variations (default `n_variations = 3`), evaluate all of them, compute each
variation's accuracy delta against `prompt_0`, and report
`1 - max |delta|` and `min delta`. -/
def test_format_robustness (prompt : String) (dataset : List DatasetItem)
    (model_func variation_func : String → Except String String) :
    Except String RobustnessReport :=
  let variations := generate_variations prompt variation_func 3
  (run_evaluation dataset variations model_func).map (fun results =>
    let base_score := ((results.head?).map (fun r => r.accuracy)).getD 0
    let format_variations := (List.range variations.length).map (fun i =>
      let score := ((results[i]?).map (fun r => r.accuracy)).getD 0
      { score := score
        delta := score - base_score
        delta_percent :=
          if 0 < base_score then (score - base_score) / base_score * 100 else 0 })
    { robustness_score :=
        1 - (listMax? (format_variations.map (fun v => |v.delta|))).getD 0
      performance_delta :=
        (listMin? (format_variations.map (fun v => v.delta))).getD 0
      variations := variations
      format_variations := format_variations
      results := results })

/-! ## Claim C8 -/

/-- Severity fractions of `test_adversarial_robustness`
(`severity_map.get(level, 0.15)`). -/
def severity_map (level : String) : ℚ :=
  if level = "light" then 1/20
  else if level = "medium" then 3/20
  else if level = "heavy" then 3/10
  else 3/20

/-- Report of `test_adversarial_robustness`: the headline scores plus the
two `adversarial_tests` entries, flattened to the fields the claims use
(`clean_score`/`adv_score` are the `score` fields of the clean and
adversarial entries; `adv_impact` is the adversarial entry's `impact`; the
clean entry's impact is the constant `0`). -/
structure AdvReport where
  robustness_score : ℚ
  performance_delta : ℚ
  clean_score : ℚ
  adv_score : ℚ
  adv_impact : ℚ
deriving DecidableEq

/-- Embedding of `RobustnessTester.test_adversarial_robustness`.  The
random character-level noise of the source's `inject_noise` (seeded by
`random`) is modelled by an arbitrary noise oracle
`inject_noise : ℚ → String → String` receiving the severity fraction, so
every theorem below holds for every possible random draw. -/
def test_adversarial_robustness (prompt : String) (dataset : List DatasetItem)
    (model_func : String → Except String String)
    (inject_noise : ℚ → String → String) (level : String) :
    Except String AdvReport := do
  let severity := severity_map level
  let adv_dataset := dataset.map (fun item =>
    ⟨inject_noise severity item.input, item.output⟩)
  let clean_res ← run_evaluation dataset [prompt] model_func
  let adv_res ← run_evaluation adv_dataset [prompt] model_func
  let clean_score := ((clean_res.head?).map (fun r => r.accuracy)).getD 0
  let adv_score := ((adv_res.head?).map (fun r => r.accuracy)).getD 0
  return { robustness_score :=
             if 0 < clean_score then adv_score / clean_score else 0
           performance_delta := adv_score - clean_score
           clean_score := clean_score
           adv_score := adv_score
           adv_impact :=
             if 0 < clean_score then (clean_score - adv_score) / clean_score * 100
             else 0 }

/-! ## Text metrics (src/evaluator/metrics.py)

Only the `score` field of `MetricResult` is modelled for the per-pair
metrics (the `details` dict repeats rounded intermediate values); for
`calculate_bleu_corpus` the `details` dict is modelled because claim C10 is
about its error entry. -/

/-- Character class of the regex `\w` (ASCII). -/
def isWordChar (c : Char) : Bool :=
  c.isAlphanum || c = '_'

/-- Maximal runs of word characters, as matched by
`re.findall(r'\w+', ...)`. -/
def splitWordRuns : List Char → List Char → List (List Char)
  | [], cur => if cur = [] then [] else [cur.reverse]
  | c :: cs, cur =>
    if isWordChar c then splitWordRuns cs (c :: cur)
    else if cur = [] then splitWordRuns cs cur
    else cur.reverse :: splitWordRuns cs []

/-- Embedding of `_tokenize`: lowercase, then take the maximal `\w+` runs. -/
def _tokenize (text : String) : List String :=
  (splitWordRuns (text.data.map Char.toLower) []).map (fun l => ⟨l⟩)

/-- Embedding of `_get_ngrams`, as the list of n-gram occurrences (the
source's `Counter` is this list up to multiplicity bookkeeping: a counter
value is a `List.count` here, and `sum(counter.values())` is the list
length).  Python's `range(len(tokens) - n + 1)` is empty when
`len(tokens) < n`. -/
def _get_ngrams (tokens : List String) (n : ℕ) : List (List String) :=
  if tokens.length + 1 ≤ n then []
  else (List.range (tokens.length + 1 - n)).map (fun i => (tokens.drop i).take n)

/-- Clipped overlap count shared by BLEU and ROUGE-N:
`sum(min(pred[ng], ref[ng]) for ng in pred)` over the distinct n-grams of
the prediction. -/
def clippedCount {α : Type} [DecidableEq α] (pred_ngrams ref_ngrams : List α) : ℕ :=
  (pred_ngrams.dedup.map
    (fun g => min (pred_ngrams.count g) (ref_ngrams.count g))).sum

/-- Per-order modified precisions of `calculate_bleu` (`n = 1 .. max_n`);
an order with no prediction n-grams contributes the precision `0`. -/
def bleuPrecisions (pred_tokens ref_tokens : List String) (max_n : ℕ) : List ℚ :=
  (List.range max_n).map (fun k =>
    let pred_ngrams := _get_ngrams pred_tokens (k + 1)
    let ref_ngrams := _get_ngrams ref_tokens (k + 1)
    if pred_ngrams = [] then 0
    else
      let clipped := clippedCount pred_ngrams ref_ngrams
      let total := pred_ngrams.length
      if 0 < total then (clipped : ℚ) / total else 0)

/-- Python `round(x, 4)` on the reals (the BLEU score lives in `ℝ` because
of `math.exp` / `math.log`). -/
noncomputable def realRound4 (x : ℝ) : ℝ :=
  ((round (x * 10000) : ℤ) : ℝ) / 10000

/-- Embedding of `calculate_bleu`: brevity penalty times the geometric mean
`exp(mean(log p_n))` of the per-order precisions when all are positive,
else `0` (no smoothing); `0` on an empty tokenization. -/
noncomputable def calculate_bleu (prediction reference : String) (max_n : ℕ := 4) : ℝ :=
  let pred_tokens := _tokenize prediction
  let ref_tokens := _tokenize reference
  if pred_tokens = [] ∨ ref_tokens = [] then 0
  else
    let precisions := bleuPrecisions pred_tokens ref_tokens max_n
    let bp : ℝ :=
      if ref_tokens.length ≤ pred_tokens.length then 1
      else Real.exp (1 - (ref_tokens.length : ℝ) / (pred_tokens.length : ℝ))
    let bleu : ℝ :=
      if precisions.all (fun p => 0 < p) then
        bp * Real.exp ((precisions.map (fun p => Real.log (Rat.cast p))).sum
              / (precisions.length : ℝ))
      else 0
    realRound4 bleu

/-- Details dict of `calculate_bleu_corpus`: either the mismatched-length
error entry or the per-pair scores with their count. -/
inductive CorpusDetails where
  | mismatchError (msg : String)
  | individualScores (scores : List ℝ) (count : ℕ)

/-- MetricResult returned by `calculate_bleu_corpus`. -/
structure CorpusResult where
  score : ℝ
  details : CorpusDetails

/-- Embedding of `calculate_bleu_corpus`: score `0.0` with a
`"Mismatched lengths"` error entry on length mismatch, else the rounded
average of the per-pair BLEU scores. -/
noncomputable def calculate_bleu_corpus (predictions references : List String) :
    CorpusResult :=
  if predictions.length ≠ references.length then
    ⟨0, .mismatchError "Mismatched lengths"⟩
  else
    let scores := (predictions.zip references).map
      (fun pr => calculate_bleu pr.1 pr.2 4)
    let avg_score : ℝ :=
      if scores ≠ [] then scores.sum / (scores.length : ℝ) else 0
    ⟨realRound4 avg_score, .individualScores scores scores.length⟩

/-- Longest-common-subsequence length: the recurrence that the dynamic
programming table of `_get_lcs_length` fills
(`dp[i][j] = dp[i-1][j-1] + 1` on a match, else
`max(dp[i-1][j], dp[i][j-1])`). -/
def lcsLength : List String → List String → ℕ
  | [], _ => 0
  | _ :: _, [] => 0
  | a :: as, b :: bs =>
    if a = b then lcsLength as bs + 1
    else max (lcsLength (a :: as) bs) (lcsLength as (b :: bs))
termination_by l1 l2 => l1.length + l2.length
decreasing_by
  all_goals simp [List.length_cons]
  all_goals omega

/-- Embedding of `calculate_rouge_l` (score field): F1 of the LCS-based
precision and recall, rounded to 4 places. -/
def calculate_rouge_l (prediction reference : String) : ℚ :=
  let pred_tokens := _tokenize prediction
  let ref_tokens := _tokenize reference
  if pred_tokens = [] ∨ ref_tokens = [] then 0
  else
    let lcs := lcsLength pred_tokens ref_tokens
    let precision : ℚ :=
      if pred_tokens = [] then 0 else (lcs : ℚ) / pred_tokens.length
    let recall' : ℚ :=
      if ref_tokens = [] then 0 else (lcs : ℚ) / ref_tokens.length
    let f1 :=
      if 0 < precision + recall' then 2 * precision * recall' / (precision + recall')
      else 0
    round4 f1

/-- Embedding of `calculate_rouge_n` (score field): F1 of the clipped
n-gram precision and recall, rounded to 4 places; `0` on empty
tokenizations or an empty reference n-gram counter. -/
def calculate_rouge_n (prediction reference : String) (n : ℕ := 1) : ℚ :=
  let pred_tokens := _tokenize prediction
  let ref_tokens := _tokenize reference
  if pred_tokens = [] ∨ ref_tokens = [] then 0
  else
    let pred_ngrams := _get_ngrams pred_tokens n
    let ref_ngrams := _get_ngrams ref_tokens n
    if ref_ngrams = [] then 0
    else
      let overlap := clippedCount pred_ngrams ref_ngrams
      let precision : ℚ :=
        if pred_ngrams = [] then 0 else (overlap : ℚ) / pred_ngrams.length
      let recall' : ℚ :=
        if ref_ngrams = [] then 0 else (overlap : ℚ) / ref_ngrams.length
      let f1 :=
        if 0 < precision + recall' then 2 * precision * recall' / (precision + recall')
        else 0
      round4 f1

/-- Embedding of `calculate_semantic_similarity_simple` (score field):
Jaccard similarity of the token sets, rounded to 4 places. -/
def calculate_semantic_similarity_simple (prediction reference : String) : ℚ :=
  let pred_words := (_tokenize prediction).toFinset
  let ref_words := (_tokenize reference).toFinset
  if pred_words = ∅ ∨ ref_words = ∅ then 0
  else
    let inter := pred_words ∩ ref_words
    let union := pred_words ∪ ref_words
    let jaccard : ℚ :=
      if union = ∅ then 0 else (inter.card : ℚ) / union.card
    round4 jaccard

/-- Report produced by the claim C4 scenario. -/
def c4Report : RobustnessReport :=
  ⟨1, 0, ["Answer"], [⟨1, 0, 0⟩], [⟨"Answer", 1, ["y"], ["y"]⟩]⟩


/-! ## Theorems -/

/-! ## Helper lemmas about `foldl max` / `listMax?` -/

theorem foldl_max_init_le {α : Type} [LinearOrder α] (l : List α) (a : α) :
    a ≤ l.foldl max a := by
  induction l generalizing a with
  | nil => simp
  | cons b l ih => exact le_trans (le_max_left a b) (ih (max a b))

theorem le_foldl_max_of_mem {α : Type} [LinearOrder α] {l : List α} {x : α}
    (h : x ∈ l) (a : α) : x ≤ l.foldl max a := by
  induction l generalizing a with
  | nil => cases h
  | cons b l ih =>
    rcases List.mem_cons.mp h with rfl | h
    · exact le_trans (le_max_right a x) (foldl_max_init_le l (max a x))
    · exact ih h (max a b)

theorem foldl_max_mem {α : Type} [LinearOrder α] (l : List α) (a : α) :
    l.foldl max a = a ∨ l.foldl max a ∈ l := by
  induction l generalizing a with
  | nil => left; rfl
  | cons b l ih =>
    rcases ih (max a b) with h | h
    · rcases max_choice a b with hm | hm
      · left; rw [List.foldl_cons, h, hm]
      · right; rw [List.foldl_cons, h, hm]; exact List.mem_cons_self b l
    · right; exact List.mem_cons_of_mem b h

/-! ## Helper lemmas for the metric range and self-match claims -/

theorem sum_ite_eq_le_one {α : Type} [DecidableEq α] (S : List α) (a : α)
    (hS : S.Nodup) :
    (S.map (fun g => if a = g then (1:ℕ) else 0)).sum ≤ 1 := by
  induction S with
  | nil => simp
  | cons b S ih =>
    obtain ⟨hb, hS'⟩ := List.nodup_cons.mp hS
    rw [List.map_cons, List.sum_cons]
    by_cases hba : a = b
    · subst hba
      have hz : (S.map (fun g => if a = g then (1:ℕ) else 0)).sum = 0 := by
        apply List.sum_eq_zero
        intro x hx
        obtain ⟨g, hg, hgx⟩ := List.mem_map.mp hx
        have : a ≠ g := fun h => hb (h ▸ hg)
        simp [← hgx, this]
      simp [hz]
    · simp only [if_neg hba, Nat.zero_add]
      exact ih hS'

theorem sum_count_nodup_le_length {α : Type} [DecidableEq α] (S r : List α)
    (hS : S.Nodup) :
    (S.map (fun g => r.count g)).sum ≤ r.length := by
  induction r with
  | nil => simp
  | cons a r ih =>
    have hsplit : (S.map (fun g => (a :: r).count g)).sum
        = (S.map (fun g => r.count g)).sum
          + (S.map (fun g => if a = g then (1:ℕ) else 0)).sum := by
      rw [← List.sum_map_add]
      congr 1
      apply List.map_congr_left
      intro g _
      rw [List.count_cons]
      simp [beq_iff_eq]
    rw [hsplit, List.length_cons]
    exact Nat.add_le_add ih (sum_ite_eq_le_one S a hS)

theorem clippedCount_le_left {α : Type} [DecidableEq α] (pg rg : List α) :
    clippedCount pg rg ≤ pg.length := by
  calc clippedCount pg rg
      ≤ (pg.dedup.map (fun g => pg.count g)).sum := by
        apply List.sum_le_sum
        intro g _
        exact inf_le_left
    _ = pg.length := List.sum_map_count_dedup_eq_length pg

theorem clippedCount_le_right {α : Type} [DecidableEq α] (pg rg : List α) :
    clippedCount pg rg ≤ rg.length := by
  calc clippedCount pg rg
      ≤ (pg.dedup.map (fun g => rg.count g)).sum := by
        apply List.sum_le_sum
        intro g _
        exact inf_le_right
    _ ≤ rg.length := sum_count_nodup_le_length pg.dedup rg pg.nodup_dedup

theorem clippedCount_self {α : Type} [DecidableEq α] (l : List α) :
    clippedCount l l = l.length := by
  unfold clippedCount
  simp only [min_self]
  exact List.sum_map_count_dedup_eq_length l

theorem ratio_bounds (num den : ℕ) (h : num ≤ den) :
    0 ≤ (num : ℚ) / den ∧ (num : ℚ) / den ≤ 1 := by
  constructor
  · positivity
  · rcases Nat.eq_zero_or_pos den with hd | hd
    · subst hd; simp
    · rw [div_le_one (by exact_mod_cast hd)]
      exact_mod_cast h

theorem round4_bounds {q : ℚ} (h0 : 0 ≤ q) (h1 : q ≤ 1) :
    0 ≤ round4 q ∧ round4 q ≤ 1 := by
  have hlo : (0 : ℤ) ≤ round (q * 10000) := by
    rw [round_eq]
    apply Int.le_floor.mpr
    push_cast
    linarith
  have hhi : round (q * 10000) ≤ 10000 := by
    rw [round_eq]
    have : (⌊q * 10000 + 1 / 2⌋ : ℚ) ≤ 10000 + 1 / 2 :=
      le_trans (Int.floor_le _) (by linarith)
    by_contra hcon
    push_neg at hcon
    have : ((10001 : ℤ) : ℚ) ≤ (⌊q * 10000 + 1 / 2⌋ : ℚ) := by
      exact_mod_cast hcon
    linarith
  constructor
  · unfold round4
    positivity
  · unfold round4
    rw [div_le_one (by norm_num)]
    exact_mod_cast hhi

theorem f1_round4_bounds {p r : ℚ} (hp0 : 0 ≤ p) (hp1 : p ≤ 1) (hr0 : 0 ≤ r)
    (hr1 : r ≤ 1) :
    0 ≤ round4 (if 0 < p + r then 2 * p * r / (p + r) else 0)
  ∧ round4 (if 0 < p + r then 2 * p * r / (p + r) else 0) ≤ 1 := by
  have hf : 0 ≤ (if 0 < p + r then 2 * p * r / (p + r) else 0)
      ∧ (if 0 < p + r then 2 * p * r / (p + r) else 0) ≤ 1 := by
    split
    case isTrue h =>
      constructor
      · positivity
      · rw [div_le_one h]
        nlinarith
    case isFalse h => norm_num
  exact round4_bounds hf.1 hf.2

theorem round4_one : round4 1 = 1 := by
  unfold round4
  rw [one_mul, show ((10000 : ℚ)) = ((10000 : ℤ) : ℚ) by norm_num, round_intCast]
  norm_num

theorem realRound4_one : realRound4 1 = 1 := by
  unfold realRound4
  rw [one_mul, show ((10000 : ℝ)) = ((10000 : ℤ) : ℝ) by norm_num, round_intCast]
  norm_num

theorem realRound4_zero : realRound4 0 = 0 := by
  unfold realRound4
  rw [zero_mul, round_zero]
  norm_num

theorem alookup_dictSet_self (l : List (CacheKey × CacheEntry)) (k : CacheKey)
    (v : CacheEntry) : alookup (dictSet l k v) k = some v := by
  simp [alookup, dictSet]

/-! ## Claim C6 -/

/-- Claim C6: a `set` followed by a `get` with the same
`(prompt, model, provider, temperature)` and an unmoved clock returns the
cached response whenever `ttl_hours > 0`; once strictly more than
`ttl_hours` have elapsed since the entry's timestamp (which with
`ttl_hours = 0` means any strictly later clock), the same `get` returns
`None`. -/
theorem claim_C6 (st : CacheState) (prompt model provider response : String)
    (temperature ttl_hours now fwd : ℚ) :
    (0 < ttl_hours →
      (cacheGet ttl_hours now (cacheSet now st prompt model provider response temperature)
        prompt model provider temperature).1 = some response)
  ∧ (now + ttl_hours < fwd →
      (cacheGet ttl_hours fwd (cacheSet now st prompt model provider response temperature)
        prompt model provider temperature).1 = none) := by
  constructor
  · intro httl
    have hfresh : _is_expired ttl_hours now now = false := by
      simp only [_is_expired, decide_eq_false_iff_not]
      linarith
    simp only [cacheGet, cacheSet, alookup_dictSet_self, Option.elim, hfresh,
      Bool.false_eq_true, if_false]
  · intro hfwd
    have hexp : _is_expired ttl_hours fwd now = true := by
      simp only [_is_expired, decide_eq_true_eq]
      linarith
    simp only [cacheGet, cacheSet, alookup_dictSet_self, Option.elim, hexp, if_true,
      cacheGetDisk]

/-- Concrete instantiation of claim C6: round-trip hit at `ttl = 1` hour and
expiry after fast-forwarding the clock from `0` to `2` hours. -/
theorem claim_C6_witness :
    ((0 : ℚ) < 1 ∧ (0 : ℚ) + 1 < 2)
  ∧ (cacheGet 1 0 (cacheSet 0 ⟨[], [], 0, 0, 0⟩ "p" "m" "prov" "resp" 0)
      "p" "m" "prov" 0).1 = some "resp"
  ∧ (cacheGet 1 2 (cacheSet 0 ⟨[], [], 0, 0, 0⟩ "p" "m" "prov" "resp" 0)
      "p" "m" "prov" 0).1 = none :=
  ⟨⟨by norm_num, by norm_num⟩,
    (claim_C6 ⟨[], [], 0, 0, 0⟩ "p" "m" "prov" "resp" 0 1 0 2).1 (by norm_num),
    (claim_C6 ⟨[], [], 0, 0, 0⟩ "p" "m" "prov" "resp" 0 1 0 2).2 (by norm_num)⟩

/-! ## Claim C1 -/

/-- Claim C1, as frozen, is false on the code: `evaluate_accuracy` returns
the score `0.0` for the mismatched-length pair `([], ["a"])`, because the
emptiness short-circuit fires before the length check. -/
theorem claim_C1_counterexample :
    ([] : List String).length ≠ (["a"] : List String).length
      ∧ evaluate_accuracy [] ["a"] = Except.ok 0 :=
  ⟨by decide, rfl⟩

/-- Claim C1 (amended): for every pair of NON-EMPTY lists of differing
lengths, `evaluate_accuracy` raises the length-mismatch `ValueError`
(modelled as `.error`); it never returns a score for such inputs.  (Pairs
in which either list is empty return the score `0.0` instead.) -/
theorem claim_C1 (predictions ground_truth : List String)
    (hp : predictions ≠ []) (hg : ground_truth ≠ [])
    (hlen : predictions.length ≠ ground_truth.length) :
    evaluate_accuracy predictions ground_truth
      = Except.error "Predictions and ground truth must have the same length" := by
  simp [evaluate_accuracy, hp, hg, hlen]

/-- Concrete instantiation of the amended claim C1 at `(["a"], ["b","c"])`. -/
theorem claim_C1_witness :
    ((["a"] : List String) ≠ [] ∧ (["b", "c"] : List String) ≠ []
        ∧ (["a"] : List String).length ≠ (["b", "c"] : List String).length)
      ∧ evaluate_accuracy ["a"] ["b", "c"]
          = Except.error "Predictions and ground truth must have the same length" :=
  ⟨⟨by decide, by decide, by decide⟩,
    claim_C1 ["a"] ["b", "c"] (by decide) (by decide) (by decide)⟩

/-! ## Claim C2 -/

theorem lcsLength_self (t : List String) : lcsLength t t = t.length := by
  induction t with
  | nil => simp [lcsLength]
  | cons a as ih => simp [lcsLength, ih]

theorem bleuPrecisions_self (t : List String) (max_n : ℕ) (h : max_n ≤ t.length) :
    bleuPrecisions t t max_n = List.replicate max_n 1 := by
  unfold bleuPrecisions
  rw [List.eq_replicate_iff]
  refine ⟨by simp, ?_⟩
  intro b hb
  obtain ⟨k, hk, hkb⟩ := List.mem_map.mp hb
  have hklt : k < max_n := List.mem_range.mp hk
  have hng : _get_ngrams t (k + 1)
      = (List.range (t.length + 1 - (k + 1))).map (fun i => (t.drop i).take (k + 1)) := by
    rw [_get_ngrams, if_neg (by omega)]
  have hlen : (_get_ngrams t (k + 1)).length = t.length - k := by
    rw [hng, List.length_map, List.length_range]
    omega
  have hne : _get_ngrams t (k + 1) ≠ [] := by
    intro hcon
    rw [hcon] at hlen
    simp at hlen
    omega
  rw [← hkb, if_neg hne, if_pos (by omega : 0 < (_get_ngrams t (k + 1)).length),
    clippedCount_self]
  have : ((_get_ngrams t (k + 1)).length : ℚ) ≠ 0 := by
    rw [hlen]
    exact_mod_cast (by omega : ¬(t.length - k = 0))
  exact div_self this

/-- Claim C2, as frozen, is false on the code: `calculate_bleu(a, a)` is `0`,
not `1`, for a non-empty `a` with fewer than `max_n = 4` tokens, because the
per-order precision of an order with no prediction n-grams is `0` and any
zero precision forces BLEU to `0` (no smoothing) — exactly as the spec's own
no-smoothing sentence states.  At `a = "hello"` the tokenization is
`["hello"]` (non-empty) and the score is `0`. -/
theorem claim_C2_counterexample :
    _tokenize "hello" ≠ []
  ∧ calculate_bleu "hello" "hello" 4 = 0
  ∧ calculate_bleu "hello" "hello" 4 ≠ 1 := by
  have htok : _tokenize "hello" = ["hello"] := by decide
  have hb : calculate_bleu "hello" "hello" 4 = 0 := by
    simp only [calculate_bleu, htok]
    rw [if_neg (by simp)]
    have hprec : bleuPrecisions ["hello"] ["hello"] 4 = [1, 0, 0, 0] := by
      with_unfolding_all decide
    have hall : (([1, 0, 0, 0] : List ℚ).all (fun p => 0 < p)) = false := by
      with_unfolding_all decide
    rw [hprec, hall]
    simp [realRound4_zero]
  exact ⟨by simp [htok], hb, by rw [hb]; norm_num⟩

/-- Claim C2 (amended): `ROUGE-L(a, a) = 1.0` for every `a` with non-empty
tokenization, and `BLEU(a, a) = 1.0` for every `a` with at least
`max_n = 4` tokens (full self-match, brevity penalty 1); for non-empty
tokenizations of fewer than 4 tokens, the zero higher-order precisions
force `BLEU(a, a) = 0` instead. -/
theorem claim_C2 (a : String) :
    (_tokenize a ≠ [] → calculate_rouge_l a a = 1)
  ∧ (4 ≤ (_tokenize a).length → calculate_bleu a a 4 = 1) := by
  constructor
  · intro ht
    simp only [calculate_rouge_l]
    rw [if_neg (by simp [ht]), lcsLength_self, if_neg ht]
    have hlen : ((_tokenize a).length : ℚ) ≠ 0 := by
      have : (_tokenize a).length ≠ 0 := fun h => ht (List.length_eq_zero.mp h)
      exact_mod_cast this
    rw [div_self hlen]
    have hone : (if (0:ℚ) < 1 + 1 then 2 * 1 * 1 / (1 + 1) else 0) = (1:ℚ) := by
      norm_num
    rw [hone, round4_one]
  · intro h4
    have ht : _tokenize a ≠ [] := by
      intro h
      rw [h] at h4
      simp at h4
    simp only [calculate_bleu]
    rw [if_neg (by simp [ht]), bleuPrecisions_self _ _ h4, if_pos (le_refl _)]
    have hall : ((List.replicate 4 (1:ℚ)).all (fun p => 0 < p)) = true := by
      rw [List.all_eq_true]
      intro x hx
      rw [List.eq_of_mem_replicate hx]
      norm_num
    rw [hall, if_pos rfl]
    have hlog : ((List.replicate 4 (1:ℚ)).map (fun p => Real.log (Rat.cast p))).sum
        = 0 := by
      rw [List.map_replicate]
      norm_num [List.sum_replicate]
    rw [hlog]
    norm_num [Real.exp_zero, realRound4_one]

/-- Concrete instantiation of the amended claim C2 at
`a = "one two three four"` (4 tokens). -/
theorem claim_C2_witness :
    _tokenize "one two three four" ≠ []
  ∧ 4 ≤ (_tokenize "one two three four").length
  ∧ calculate_rouge_l "one two three four" "one two three four" = 1
  ∧ calculate_bleu "one two three four" "one two three four" 4 = 1 := by
  have h4 : 4 ≤ (_tokenize "one two three four").length := by decide
  have ht : _tokenize "one two three four" ≠ [] := by decide
  exact ⟨ht, h4, (claim_C2 "one two three four").1 ht,
    (claim_C2 "one two three four").2 h4⟩
/-! ## Claim C3 -/

/-- Claim C3, as frozen, is false on the code: the original prompt is NOT
always contained in the result.  When the LLM's split output already
contains the prompt, but only at an index beyond `n_variations`, the
membership check suppresses the prepend and the final truncation drops the
prompt: with `n_variations = 3` and response `"a---b---c---d---p"`, the
result is `["a","b","c","d"]`, which does not contain `"p"`. -/
theorem claim_C3_counterexample :
    "p" ∉ generate_variations "p" (fun _ => Except.ok "a---b---c---d---p") 3 := by
  decide

/-- Claim C3 (amended): `generate_variations` returns at most
`n_variations + 1` entries; it returns exactly `[prompt]` whenever
`model_func` raises; and whenever the prompt is missing from the LLM's
split output it is prepended, so the result starts with the original
prompt.  (Containment can fail only when the split output holds the prompt
beyond index `n_variations`, as in the counterexample.) -/
theorem claim_C3 (prompt : String) (model_func : String → Except String String)
    (n_variations : ℕ) :
    (generate_variations prompt model_func n_variations).length ≤ n_variations + 1
  ∧ (∀ e, model_func (meta_prompt prompt n_variations) = .error e →
      generate_variations prompt model_func n_variations = [prompt])
  ∧ (∀ r, model_func (meta_prompt prompt n_variations) = .ok r →
      prompt ∉ splitVariations r →
      (generate_variations prompt model_func n_variations).head? = some prompt) := by
  refine ⟨?_, ?_, ?_⟩
  · cases h : model_func (meta_prompt prompt n_variations) with
    | error e => simp [generate_variations, h, exceptCase]
    | ok r =>
      simp only [generate_variations, h, exceptCase, List.length_take]
      exact min_le_left _ _
  · intro e h
    simp [generate_variations, h, exceptCase]
  · intro r h hnot
    simp only [generate_variations, h, exceptCase]
    by_cases hv : splitVariations r = []
    · simp [hv]
    · rw [if_neg hv, if_neg hnot, List.take_succ_cons, List.head?_cons]

/-- Concrete instantiations of the amended claim C3: the raising branch at
`"p"`, and the prepending branch at `"q"` with split output `["a","b"]`. -/
theorem claim_C3_witness :
    generate_variations "p" (fun _ => Except.error "boom") 3 = ["p"]
  ∧ "q" ∉ splitVariations "a---b"
  ∧ (generate_variations "q" (fun _ => Except.ok "a---b") 3).head? = some "q" :=
  ⟨(claim_C3 "p" (fun _ => Except.error "boom") 3).2.1 "boom" rfl,
   by decide,
   (claim_C3 "q" (fun _ => Except.ok "a---b") 3).2.2 "a---b" rfl (by decide)⟩

/-! ## Claim C4 -/

/-- Claim C4: whenever `test_format_robustness` returns a report with a
non-empty variation list, its `robustness_score` is `1 - max |delta|` and
its `performance_delta` is `min delta` over the recorded variations, where
each recorded `delta` is that variation's accuracy minus the accuracy of
variation 0; and the single-item scenario (dataset `[{x, y}]`, a model
always answering `y`, a variation function yielding only the original
prompt) produces `robustness_score = 1` and `performance_delta = 0`. -/
theorem claim_C4 :
    (∀ (prompt : String) (dataset : List DatasetItem)
        (model_func variation_func : String → Except String String)
        (report : RobustnessReport),
      test_format_robustness prompt dataset model_func variation_func
          = Except.ok report →
      report.format_variations ≠ [] →
        report.robustness_score
            = 1 - (listMax? (report.format_variations.map (fun v => |v.delta|))).getD 0
      ∧ report.performance_delta
            = (listMin? (report.format_variations.map (fun v => v.delta))).getD 0
      ∧ ∀ fv ∈ report.format_variations,
          fv.delta
            = fv.score - ((report.results.head?).map (fun r => r.accuracy)).getD 0)
  ∧ (test_format_robustness "Answer" [⟨"x", "y"⟩] (fun _ => Except.ok "y")
        (fun _ => Except.ok "Answer")).toOption.map
        (fun r => (r.robustness_score, r.performance_delta)) = some (1, 0) := by
  constructor
  · intro prompt dataset model_func variation_func report h _
    cases hrun : run_evaluation dataset (generate_variations prompt variation_func 3)
        model_func with
    | error e =>
      rw [test_format_robustness, hrun] at h
      exact absurd h (by simp [Except.map])
    | ok results =>
      rw [test_format_robustness, hrun] at h
      simp only [Except.map, Except.ok.injEq] at h
      subst h
      refine ⟨rfl, rfl, ?_⟩
      intro fv hfv
      simp only [List.mem_map, List.mem_range] at hfv
      obtain ⟨i, _, hfv⟩ := hfv
      subst hfv
      rfl
  · with_unfolding_all decide

/-- Concrete instantiation of claim C4's general clause at the scenario
inputs, whose report is `c4Report`. -/
theorem claim_C4_witness :
    test_format_robustness "Answer" [⟨"x", "y"⟩] (fun _ => Except.ok "y")
        (fun _ => Except.ok "Answer") = Except.ok c4Report
  ∧ c4Report.format_variations ≠ []
  ∧ (c4Report.robustness_score
        = 1 - (listMax? (c4Report.format_variations.map (fun v => |v.delta|))).getD 0
    ∧ c4Report.performance_delta
        = (listMin? (c4Report.format_variations.map (fun v => v.delta))).getD 0
    ∧ ∀ fv ∈ c4Report.format_variations,
        fv.delta
          = fv.score - ((c4Report.results.head?).map (fun r => r.accuracy)).getD 0) := by
  have h : test_format_robustness "Answer" [⟨"x", "y"⟩] (fun _ => Except.ok "y")
      (fun _ => Except.ok "Answer") = Except.ok c4Report := by
    with_unfolding_all decide
  exact ⟨h, by decide,
    claim_C4.1 "Answer" [⟨"x", "y"⟩] (fun _ => Except.ok "y")
      (fun _ => Except.ok "Answer") c4Report h (by decide)⟩

/-! ## Claim C5 -/

set_option maxRecDepth 2000 in
/-- Claim C5: on the 10-run scenario state (accuracy 0.9 in the 5 oldest
runs, 0.7 in the 5 newest), `detect_regression` with `threshold = 0.05` and
`window = 5` reports a regression with `drop_percentage = 0.2222`
(`= (0.9-0.7)/0.9` rounded to 4 places) and severity `"high"`; and whenever
fewer than 2 of the runs in the inspected window carry the requested
metric, it returns a no-regression result with an explanatory reason (one
of the two early-return reasons) instead of raising. -/
theorem claim_C5 :
    detect_regression c5State "p1" "accuracy" (1/20) 5
      = RegressionResult.analysis true "accuracy" (7/10) (9/10) (1111/5000)
          (1/20) 5 5 "high"
  ∧ (∀ (st : HistoryState) (prompt_id metric_name : String) (threshold : ℚ)
        (window : ℕ),
      ((get_prompt_history st prompt_id (some (window * 2))).filterMap
          (fun run => alookup run.metrics metric_name)).length < 2 →
      detect_regression st prompt_id metric_name threshold window
          = RegressionResult.noHistory false "Insufficient history"
        ∨ detect_regression st prompt_id metric_name threshold window
          = RegressionResult.noHistory false
              ("Metric \x27" ++ metric_name ++ "\x27 not found in history")) := by
  constructor
  · have hh : get_prompt_history c5State "p1" (some (5 * 2)) =
        [⟨"r10", [("accuracy", 7/10)]⟩, ⟨"r9", [("accuracy", 7/10)]⟩,
         ⟨"r8", [("accuracy", 7/10)]⟩, ⟨"r7", [("accuracy", 7/10)]⟩,
         ⟨"r6", [("accuracy", 7/10)]⟩, ⟨"r5", [("accuracy", 9/10)]⟩,
         ⟨"r4", [("accuracy", 9/10)]⟩, ⟨"r3", [("accuracy", 9/10)]⟩,
         ⟨"r2", [("accuracy", 9/10)]⟩, ⟨"r1", [("accuracy", 9/10)]⟩] := rfl
    have hv : ([⟨"r10", [("accuracy", 7/10)]⟩, ⟨"r9", [("accuracy", 7/10)]⟩,
         ⟨"r8", [("accuracy", 7/10)]⟩, ⟨"r7", [("accuracy", 7/10)]⟩,
         ⟨"r6", [("accuracy", 7/10)]⟩, ⟨"r5", [("accuracy", 9/10)]⟩,
         ⟨"r4", [("accuracy", 9/10)]⟩, ⟨"r3", [("accuracy", 9/10)]⟩,
         ⟨"r2", [("accuracy", 9/10)]⟩, ⟨"r1", [("accuracy", 9/10)]⟩] :
        List EvaluationRun).filterMap (fun run => alookup run.metrics "accuracy")
        = [7/10, 7/10, 7/10, 7/10, 7/10, 9/10, 9/10, 9/10, 9/10, 9/10] := rfl
    have htake : ([7/10, 7/10, 7/10, 7/10, 7/10, 9/10, 9/10, 9/10, 9/10, 9/10] :
        List ℚ).take 5 = [7/10, 7/10, 7/10, 7/10, 7/10] := rfl
    have hdrop : (([7/10, 7/10, 7/10, 7/10, 7/10, 9/10, 9/10, 9/10, 9/10, 9/10] :
        List ℚ).drop 5).take 5 = [9/10, 9/10, 9/10, 9/10, 9/10] := rfl
    have hsum7 : ([7/10, 7/10, 7/10, 7/10, 7/10] : List ℚ).sum = 7/2 := by
      with_unfolding_all rfl
    have hsum9 : ([9/10, 9/10, 9/10, 9/10, 9/10] : List ℚ).sum = 9/2 := by
      with_unfolding_all rfl
    have hbne : (if ([9/10, 9/10, 9/10, 9/10, 9/10] : List ℚ) = [] then
        ([7/10, 7/10, 7/10, 7/10, 7/10, 9/10, 9/10, 9/10, 9/10, 9/10] : List ℚ)
        else [9/10, 9/10, 9/10, 9/10, 9/10]) = [9/10, 9/10, 9/10, 9/10, 9/10] := rfl
    simp only [detect_regression, hh, hv]
    norm_num [htake, hdrop, hbne, hsum7, hsum9, round4, round_eq]
  · intro st prompt_id metric_name threshold window hval
    by_cases hlen :
        (get_prompt_history st prompt_id (some (window * 2))).length < 2
    · left
      simp only [detect_regression, if_pos hlen]
    · right
      simp only [detect_regression, if_neg hlen, if_pos hval]

/-- Concrete instantiation of claim C5's insufficient-history clause at the
empty history state. -/
theorem claim_C5_witness :
    (((get_prompt_history ⟨[], []⟩ "p" (some (5 * 2))).filterMap
        (fun run => alookup run.metrics "accuracy")).length < 2)
  ∧ (detect_regression ⟨[], []⟩ "p" "accuracy" (1/20) 5
        = RegressionResult.noHistory false "Insufficient history"
      ∨ detect_regression ⟨[], []⟩ "p" "accuracy" (1/20) 5
        = RegressionResult.noHistory false
            ("Metric \x27" ++ "accuracy" ++ "\x27 not found in history")) :=
  ⟨by decide, claim_C5.2 ⟨[], []⟩ "p" "accuracy" (1/20) 5 (by decide)⟩

/-! ## Claim C7 -/

/-- Claim C7: `calculate_self_consistency` returns `0.0` on the empty list;
on a non-empty list it returns the frequency of the most common
trimmed-and-lowercased response divided by the total count (there is a
response `r` realising the modal count, and no response's normalized count
exceeds it); `["a","a","a"]` yields `1.0` and `["a","b","c"]` yields `1/3`. -/
theorem claim_C7 :
    calculate_self_consistency [] = 0
  ∧ (∀ responses : List String, responses ≠ [] →
      ∃ r ∈ responses,
        calculate_self_consistency responses
          = (((responses.map pyNormalize).count (pyNormalize r)) : ℚ) / responses.length
        ∧ ∀ q ∈ responses,
            (responses.map pyNormalize).count (pyNormalize q)
              ≤ (responses.map pyNormalize).count (pyNormalize r))
  ∧ calculate_self_consistency ["a", "a", "a"] = 1
  ∧ calculate_self_consistency ["a", "b", "c"] = 1/3 := by
  refine ⟨rfl, ?_, ?_, ?_⟩
  · intro responses hne
    set normalized := responses.map pyNormalize with hnorm
    have hnn : normalized ≠ [] := by
      rw [hnorm]
      exact fun h => hne (List.map_eq_nil_iff.mp h)
    have hdn : normalized.dedup ≠ [] := fun h => hnn ((List.dedup_eq_nil normalized).mp h)
    obtain ⟨x, xs, hcons⟩ := List.exists_cons_of_ne_nil hdn
    have hmax : listMax? (normalized.dedup.map fun y => normalized.count y)
        = some ((xs.map fun y => normalized.count y).foldl max (normalized.count x)) := by
      rw [hcons]; rfl
    set m := (xs.map fun y => normalized.count y).foldl max (normalized.count x) with hm
    have hmem : m ∈ normalized.dedup.map fun y => normalized.count y := by
      rw [hcons, List.map_cons]
      rcases foldl_max_mem (xs.map fun y => normalized.count y) (normalized.count x) with h | h
      · rw [← hm] at h; rw [h]; exact List.mem_cons_self _ _
      · exact List.mem_cons_of_mem _ (by rw [← hm] at h; exact h)
    obtain ⟨y, hy, hyc⟩ := List.mem_map.mp hmem
    have hyn : y ∈ normalized := List.mem_dedup.mp hy
    obtain ⟨r, hr, hry⟩ := List.mem_map.mp (by rw [hnorm] at hyn; exact hyn)
    refine ⟨r, hr, ?_, ?_⟩
    · have : calculate_self_consistency responses = (m : ℚ) / responses.length := by
        simp only [calculate_self_consistency, if_neg hne, ← hnorm, hmax, Option.elim]
      rw [this, ← hyc, hry]
    · intro q hq
      rw [hry, hyc]
      have hqmem : normalized.count (pyNormalize q)
          ∈ normalized.dedup.map fun y => normalized.count y :=
        List.mem_map.mpr ⟨pyNormalize q,
          List.mem_dedup.mpr (by rw [hnorm]; exact List.mem_map.mpr ⟨q, hq, rfl⟩), rfl⟩
      rw [hcons, List.map_cons] at hqmem
      rcases List.mem_cons.mp hqmem with h | h
      · rw [h, hm]; exact foldl_max_init_le _ _
      · rw [hm]; exact le_foldl_max_of_mem h _
  · have h1 : (["a", "a", "a"] : List String) ≠ [] := by decide
    have h2 : listMax? (((["a", "a", "a"] : List String).map pyNormalize).dedup.map
        fun x => ((["a", "a", "a"] : List String).map pyNormalize).count x) = some 3 := by
      decide
    simp only [calculate_self_consistency, if_neg h1, h2, Option.elim]
    norm_num
  · have h1 : (["a", "b", "c"] : List String) ≠ [] := by decide
    have h2 : listMax? (((["a", "b", "c"] : List String).map pyNormalize).dedup.map
        fun x => ((["a", "b", "c"] : List String).map pyNormalize).count x) = some 1 := by
      decide
    simp only [calculate_self_consistency, if_neg h1, h2, Option.elim]
    norm_num

/-- Concrete instantiation of claim C7's modal-count clause at `["a"]`. -/
theorem claim_C7_witness :
    ((["a"] : List String) ≠ [])
  ∧ (∃ r ∈ (["a"] : List String),
      calculate_self_consistency ["a"]
        = ((((["a"] : List String).map pyNormalize).count (pyNormalize r)) : ℚ)
            / (["a"] : List String).length
      ∧ ∀ q ∈ (["a"] : List String),
          ((["a"] : List String).map pyNormalize).count (pyNormalize q)
            ≤ ((["a"] : List String).map pyNormalize).count (pyNormalize r)) :=
  ⟨by decide, claim_C7.2.1 ["a"] (by decide)⟩

/-- Claim C8: in every report returned by `test_adversarial_robustness`,
`robustness_score` equals the noisy accuracy divided by the clean accuracy
when the clean accuracy is strictly positive, and equals `0` when the clean
accuracy is `0` (the division is guarded, never raising); the reported
impact percentage is guarded in the same way. -/
theorem claim_C8 (prompt : String) (dataset : List DatasetItem)
    (model_func : String → Except String String)
    (inject_noise : ℚ → String → String) (level : String) (report : AdvReport)
    (h : test_adversarial_robustness prompt dataset model_func inject_noise level
          = Except.ok report) :
    (0 < report.clean_score →
        report.robustness_score = report.adv_score / report.clean_score
      ∧ report.adv_impact
          = (report.clean_score - report.adv_score) / report.clean_score * 100)
  ∧ (report.clean_score = 0 →
        report.robustness_score = 0 ∧ report.adv_impact = 0) := by
  cases hclean : run_evaluation dataset [prompt] model_func with
  | error e =>
    rw [test_adversarial_robustness] at h
    simp only [hclean, bind, Except.bind] at h
    exact Except.noConfusion h
  | ok clean_res =>
    cases hadv : run_evaluation (dataset.map (fun item =>
        ⟨inject_noise (severity_map level) item.input, item.output⟩))
        [prompt] model_func with
    | error e =>
      rw [test_adversarial_robustness] at h
      simp only [hclean, hadv, bind, Except.bind] at h
      exact Except.noConfusion h
    | ok adv_res =>
      rw [test_adversarial_robustness] at h
      simp only [hclean, hadv, bind, Except.bind, pure, Except.pure,
        Except.ok.injEq] at h
      subst h
      constructor
      · intro hpos
        simp only [AdvReport.robustness_score, AdvReport.adv_impact] at *
        rw [if_pos hpos, if_pos hpos]
        exact ⟨rfl, rfl⟩
      · intro hzero
        simp only [AdvReport.robustness_score, AdvReport.adv_impact] at *
        rw [hzero]
        norm_num

/-- Concrete instantiation of claim C8 at a single-item dataset with an
identity noise oracle and an always-correct model. -/
theorem claim_C8_witness :
    test_adversarial_robustness "P" [⟨"x", "y"⟩] (fun _ => Except.ok "y")
        (fun _ s => s) "medium" = Except.ok ⟨1, 0, 1, 1, 0⟩
  ∧ ((0:ℚ) < (1:ℚ))
  ∧ ((⟨1, 0, 1, 1, 0⟩ : AdvReport).robustness_score
        = (⟨1, 0, 1, 1, 0⟩ : AdvReport).adv_score
            / (⟨1, 0, 1, 1, 0⟩ : AdvReport).clean_score
    ∧ (⟨1, 0, 1, 1, 0⟩ : AdvReport).adv_impact
        = ((⟨1, 0, 1, 1, 0⟩ : AdvReport).clean_score
              - (⟨1, 0, 1, 1, 0⟩ : AdvReport).adv_score)
            / (⟨1, 0, 1, 1, 0⟩ : AdvReport).clean_score * 100) := by
  have h : test_adversarial_robustness "P" [⟨"x", "y"⟩] (fun _ => Except.ok "y")
      (fun _ s => s) "medium" = Except.ok ⟨1, 0, 1, 1, 0⟩ := by
    with_unfolding_all decide
  exact ⟨h, by norm_num,
    (claim_C8 "P" [⟨"x", "y"⟩] (fun _ => Except.ok "y") (fun _ s => s) "medium"
      ⟨1, 0, 1, 1, 0⟩ h).1 (by norm_num)⟩

/-! ## Claim C9 -/

/-- Claim C9: for all strings `a`, `b` (and every n-gram order `n`),
`calculate_rouge_n` and `calculate_semantic_similarity_simple` return
scores in `[0, 1]`, including the `0.0` error value on empty
tokenizations. -/
theorem claim_C9 (a b : String) (n : ℕ) :
    (0 ≤ calculate_rouge_n a b n ∧ calculate_rouge_n a b n ≤ 1)
  ∧ (0 ≤ calculate_semantic_similarity_simple a b
      ∧ calculate_semantic_similarity_simple a b ≤ 1) := by
  constructor
  · simp only [calculate_rouge_n]
    split
    · norm_num
    · split
      · norm_num
      · have hP : 0 ≤ (if _get_ngrams (_tokenize a) n = [] then 0 else
              ((clippedCount (_get_ngrams (_tokenize a) n)
                  (_get_ngrams (_tokenize b) n) : ℚ))
                / (_get_ngrams (_tokenize a) n).length)
            ∧ (if _get_ngrams (_tokenize a) n = [] then 0 else
              ((clippedCount (_get_ngrams (_tokenize a) n)
                  (_get_ngrams (_tokenize b) n) : ℚ))
                / (_get_ngrams (_tokenize a) n).length) ≤ 1 := by
          split
          · norm_num
          · exact ratio_bounds _ _ (clippedCount_le_left _ _)
        have hR := ratio_bounds
          (clippedCount (_get_ngrams (_tokenize a) n) (_get_ngrams (_tokenize b) n))
          (_get_ngrams (_tokenize b) n).length (clippedCount_le_right _ _)
        exact f1_round4_bounds hP.1 hP.2 hR.1 hR.2
  · simp only [calculate_semantic_similarity_simple]
    split
    · norm_num
    · have hsub : ((_tokenize a).toFinset ∩ (_tokenize b).toFinset).card
          ≤ ((_tokenize a).toFinset ∪ (_tokenize b).toFinset).card :=
        Finset.card_le_card
          (le_trans Finset.inter_subset_left Finset.subset_union_left)
      have hj : 0 ≤ (if (_tokenize a).toFinset ∪ (_tokenize b).toFinset = ∅ then 0
            else (((_tokenize a).toFinset ∩ (_tokenize b).toFinset).card : ℚ)
              / ((_tokenize a).toFinset ∪ (_tokenize b).toFinset).card)
          ∧ (if (_tokenize a).toFinset ∪ (_tokenize b).toFinset = ∅ then 0
            else (((_tokenize a).toFinset ∩ (_tokenize b).toFinset).card : ℚ)
              / ((_tokenize a).toFinset ∪ (_tokenize b).toFinset).card) ≤ 1 := by
        split
        · norm_num
        · exact ratio_bounds _ _ hsub
      exact round4_bounds hj.1 hj.2

/-! ## Claim C10 -/

/-- Claim C10: `calculate_bleu_corpus` never raises on mismatched-length
inputs; it returns a `MetricResult` with score `0.0` and the
`"Mismatched lengths"` error entry in its details. -/
theorem claim_C10 (predictions references : List String)
    (h : predictions.length ≠ references.length) :
    calculate_bleu_corpus predictions references
      = ⟨0, CorpusDetails.mismatchError "Mismatched lengths"⟩ := by
  rw [calculate_bleu_corpus, if_pos h]

/-- Concrete instantiation of claim C10 at `(["a"], [])`. -/
theorem claim_C10_witness :
    (["a"] : List String).length ≠ ([] : List String).length
  ∧ calculate_bleu_corpus ["a"] []
      = ⟨0, CorpusDetails.mismatchError "Mismatched lengths"⟩ :=
  ⟨by decide, claim_C10 ["a"] [] (by decide)⟩

